import Mathlib

/-!
Verification of the edb.cz catalog scraper.

This file shallowly embeds the crawl-control logic of the scraper
(`group.py`, `scrape.py`, `company.py`) and proves or refutes the frozen
claims about it.  Page fetches are modelled by pure functions supplied by
the environment (a "fetcher stub"): `counts : Int → Nat` maps a page
number to the number of company listings on that page.  Python integers
are unbounded, so pages are `Int`; loops without a structural bound take
explicit fuel, with `none` meaning the loop is still running.
-/

namespace Edb

/-- Fault raised by the bisection loop of `Group.get_num_pages` when its
iteration counter exceeds 200 (`Exception("Too many iterations of the
binary search: ...")` in the source). -/
inductive SearchErr where
  | divergence
deriving DecidableEq

/-- Phase 1 of `Group.get_num_pages`:
`while self.get_num_companies_on_page(max_page_upper) > 0: max_page_upper += 50`.
`fuel` bounds the number of loop iterations we are willing to unfold;
`none` means the loop had not finished within `fuel` iterations. -/
def find_upper (counts : Int → Nat) : Nat → Int → Option Int
  | 0, _ => none
  | fuel + 1, upper =>
    if 0 < counts upper then find_upper counts fuel (upper + 50) else some upper

/-- Phase 2 of `Group.get_num_pages`, the bisection loop.  The source
counts iterations upward (`iter`) and raises once `iter > 200`; here the
loop carries the remaining budget `r = 200 - iter` instead, so entry is
`r = 200` and the raise happens exactly when the budget hits zero at the
point where the source increments past the cap. -/
def bisect_loop (counts : Int → Nat) : Nat → Int → Int → Except SearchErr Int
  | r, lo, hi =>
    if hi < lo then .ok hi
    else
      let mid := Int.fdiv (hi + lo) 2
      let lo' := if 0 < counts mid then mid + 1 else lo
      let hi' := if 0 < counts mid then hi else mid - 1
      match r with
      | 0 => .error .divergence
      | r' + 1 => bisect_loop counts r' lo' hi'

/-- `Group.get_num_pages`: return the cached value if present, otherwise
run phase-1 probing from page 50 and then the bisection over `[1, upper]`. -/
def get_num_pages (counts : Int → Nat) (num_pages : Option Int) (fuel : Nat) :
    Option (Except SearchErr Int) :=
  match num_pages with
  | some n => some (.ok n)
  | none =>
    match find_upper counts fuel 50 with
    | none => none
    | some upper => some (bisect_loop counts 200 1 upper)

/-- `Group._is_num_pages_valid`, together with the number of page requests
it performs (Python `and` short-circuits, so an empty page `k` costs a
single request). -/
def is_num_pages_valid (counts : Int → Nat) (expected : Int) : Bool × Nat :=
  if counts expected ≠ 0 then ((counts (expected + 1) == 0), 2) else (false, 1)

/-- `Group.validate_num_pages`: result of the validation, the updated
`num_pages` cache field, and the number of page requests performed. -/
def validate_num_pages (counts : Int → Nat) (num_pages : Option Int) :
    Bool × Option Int × Nat :=
  match num_pages with
  | none => (false, none, 0)
  | some k =>
    let r := is_num_pages_valid counts k
    if r.1 then (true, some k, r.2) else (false, none, r.2)

/-! Helper lemmas about phase 1. -/

/-- Any value phase 1 returns is an empty page at or above the start page. -/
theorem find_upper_some (counts : Int → Nat) :
    ∀ (fuel : Nat) (u u' : Int), find_upper counts fuel u = some u' →
      counts u' = 0 ∧ u ≤ u' := by
  intro fuel
  induction fuel with
  | zero => intro u u' h; simp [find_upper] at h
  | succ fuel ih =>
    intro u u' h
    rw [find_upper] at h
    by_cases hc : 0 < counts u
    · rw [if_pos hc] at h
      obtain ⟨h0, hle⟩ := ih (u + 50) u' h
      exact ⟨h0, by omega⟩
    · rw [if_neg hc] at h
      cases h
      exact ⟨by omega, le_refl _⟩

/-- For a monotone fetcher with threshold `k`, phase 1 with enough fuel
returns an empty page that is at most `max u (k + 50)`. -/
theorem find_upper_mono (counts : Int → Nat) (k : Int)
    (hmono : ∀ p : Int, 1 ≤ p → (0 < counts p ↔ p ≤ k)) :
    ∀ (fuel : Nat) (u : Int), 1 ≤ u → k < u + 50 * fuel →
      ∃ u', find_upper counts (fuel + 1) u = some u' ∧ k < u' ∧
        u' ≤ max u (k + 50) := by
  intro fuel
  induction fuel with
  | zero =>
    intro u hu hk
    have hcu : ¬ 0 < counts u := by
      rw [hmono u hu]; omega
    refine ⟨u, ?_, by omega, le_max_left _ _⟩
    rw [find_upper, if_neg hcu]
  | succ fuel ih =>
    intro u hu hk
    by_cases hc : 0 < counts u
    · have huk : u ≤ k := (hmono u hu).mp hc
      obtain ⟨u', h1, h2, h3⟩ := ih (u + 50) (by omega) (by omega)
      refine ⟨u', ?_, h2, ?_⟩
      · rw [find_upper, if_pos hc]; exact h1
      · have : max (u + 50) (k + 50) = k + 50 := by omega
        rw [this] at h3
        omega
    · have hku : k < u := by
        rw [hmono u hu] at hc; omega
      refine ⟨u, ?_, hku, le_max_left _ _⟩
      rw [find_upper, if_neg hc]

/-! Helper lemmas about the bisection loop. -/

/-- Bisection correctness for a monotone fetcher: from a bracket
satisfying the invariant `1 ≤ lo ≤ k + 1 ≤ hi + 1`, with bracket length
below `2 ^ m - 1` and at least `m` iterations of budget left, the loop
returns exactly the threshold `k`. -/
theorem bisect_loop_mono (counts : Int → Nat) (k : Int)
    (hmono : ∀ p : Int, 1 ≤ p → (0 < counts p ↔ p ≤ k)) :
    ∀ (m r : Nat) (lo hi : Int), m ≤ r → 1 ≤ lo → lo ≤ k + 1 → k ≤ hi →
      hi + 1 - lo ≤ 2 ^ m - 1 → bisect_loop counts r lo hi = .ok k := by
  intro m
  induction m with
  | zero =>
    intro r lo hi _ h1 h2 h3 hn
    have hlt : hi < lo := by simp at hn; omega
    rw [bisect_loop, if_pos hlt]
    have : hi = k := by omega
    rw [this]
  | succ m ih =>
    intro r lo hi hmr h1 h2 h3 hn
    by_cases hlt : hi < lo
    · rw [bisect_loop, if_pos hlt]
      have : hi = k := by omega
      rw [this]
    · rw [bisect_loop, if_neg hlt]
      have hsum : 0 ≤ hi + lo := by omega
      have hmid : Int.fdiv (hi + lo) 2 = (hi + lo) / 2 :=
        Int.fdiv_eq_ediv _ (by omega)
      obtain ⟨r', rfl⟩ : ∃ r', r = r' + 1 := ⟨r - 1, by omega⟩
      have hpow : (2 : Int) ^ (m + 1) = 2 * 2 ^ m := by ring
      have hmlo : lo ≤ (hi + lo) / 2 := by omega
      have hmhi : (hi + lo) / 2 ≤ hi := by omega
      by_cases hc : 0 < counts (Int.fdiv (hi + lo) 2)
      · have hmk : Int.fdiv (hi + lo) 2 ≤ k := by
          rw [← hmono _ (by omega)]; exact hc
        simp only [hc, if_true]
        exact ih r' _ _ (by omega) (by omega) (by omega) h3 (by omega)
      · have hkm : k < Int.fdiv (hi + lo) 2 := by
          rw [hmid] at hc ⊢
          have := hmono ((hi + lo) / 2) (by omega)
          omega
        simp only [hc, if_false]
        exact ih r' _ _ (by omega) h1 h2 (by omega) (by omega)

/-- For any fetcher whatsoever — monotone or oscillating — the bisection
loop returns normally (never raises) as long as the bracket length is
below `2 ^ m - 1` for some `m` within the remaining budget: the bracket
halves every iteration no matter what the fetcher answers. -/
theorem bisect_loop_halves (counts : Int → Nat) :
    ∀ (m r : Nat) (lo hi : Int), m ≤ r → hi + 1 - lo ≤ 2 ^ m - 1 →
      ∃ v, bisect_loop counts r lo hi = .ok v := by
  intro m
  induction m with
  | zero =>
    intro r lo hi _ hn
    have hlt : hi < lo := by simp at hn; omega
    exact ⟨hi, by rw [bisect_loop, if_pos hlt]⟩
  | succ m ih =>
    intro r lo hi hmr hn
    by_cases hlt : hi < lo
    · exact ⟨hi, by rw [bisect_loop, if_pos hlt]⟩
    · rw [bisect_loop, if_neg hlt]
      have hmid : Int.fdiv (hi + lo) 2 = (hi + lo) / 2 :=
        Int.fdiv_eq_ediv _ (by omega)
      obtain ⟨r', rfl⟩ : ∃ r', r = r' + 1 := ⟨r - 1, by omega⟩
      have hpow : (2 : Int) ^ (m + 1) = 2 * 2 ^ m := by ring
      by_cases hc : 0 < counts (Int.fdiv (hi + lo) 2)
      · simp only [hc, if_true]
        exact ih r' _ _ (by omega) (by omega)
      · simp only [hc, if_false]
        exact ih r' _ _ (by omega) (by omega)

/-- If the bracket is too long for the remaining budget, the bisection
loop necessarily hits the iteration cap: each step shrinks the bracket
length `n` to at least `(n - 2) / 2`, so a bracket of length
`≥ 2 ^ (r + 2) - 2` survives `r` further iterations. -/
theorem bisect_loop_diverges (counts : Int → Nat) :
    ∀ (r : Nat) (lo hi : Int), 2 ^ (r + 2) - 2 ≤ hi + 1 - lo →
      bisect_loop counts r lo hi = .error .divergence := by
  intro r
  induction r with
  | zero =>
    intro lo hi hn
    have hlt : ¬ hi < lo := by norm_num at hn; omega
    rw [bisect_loop, if_neg hlt]
  | succ r ih =>
    intro lo hi hn
    have hpow : (2 : Int) ^ (r + 1 + 2) = 2 * 2 ^ (r + 2) := by ring
    have hp2 : (4 : Int) ≤ 2 ^ (r + 2) := by
      calc (4 : Int) = 2 ^ 2 := by norm_num
      _ ≤ 2 ^ (r + 2) := by
        apply pow_le_pow_right₀ (by norm_num) (by omega)
    have hlt : ¬ hi < lo := by omega
    rw [bisect_loop, if_neg hlt]
    have hmid : Int.fdiv (hi + lo) 2 = (hi + lo) / 2 :=
      Int.fdiv_eq_ediv _ (by omega)
    by_cases hc : 0 < counts (Int.fdiv (hi + lo) 2)
    · simp only [hc, if_true]
      exact ih _ _ (by omega)
    · simp only [hc, if_false]
      exact ih _ _ (by omega)

/-! Claim C1: discovery on a monotone fetcher. -/

/-- C1 (amended): for a fetcher whose page emptiness is monotone with
threshold `k ≥ 1` — pages `1..k` non-empty, pages beyond `k` empty —
`Group.get_num_pages` with no cached value returns exactly `k`, and the
Pagination Invariant holds for the reported count, PROVIDED the threshold
fits the 200-iteration bisection cap (`k + 51 ≤ 2 ^ 200`; beyond that the
cap raises instead, see the counterexample).  `fuel` must cover the
phase-1 probe count (`k < 50 * fuel`). -/
theorem C1_discovery_returns_threshold (counts : Int → Nat) (k : Int)
    (hk : 1 ≤ k) (hmono : ∀ p : Int, 1 ≤ p → (0 < counts p ↔ p ≤ k))
    (hcap : k + 51 ≤ 2 ^ 200) (fuel : Nat) (hfuel : k < 50 * fuel) :
    get_num_pages counts none fuel = some (.ok k) ∧
      0 < counts k ∧ counts (k + 1) = 0 := by
  obtain ⟨f, rfl⟩ : ∃ f, fuel = f + 1 := ⟨fuel - 1, by omega⟩
  obtain ⟨u', hu1, hu2, hu3⟩ :=
    find_upper_mono counts k hmono f 50 (by omega) (by omega)
  have hu4 : u' ≤ k + 50 := by omega
  refine ⟨?_, ?_, ?_⟩
  · rw [get_num_pages, hu1]
    exact congrArg some (bisect_loop_mono counts k hmono 200 200 1 u'
      (le_refl _) (by omega) (by omega) (by omega) (by omega))
  · exact (hmono k hk).mpr (le_refl k)
  · have := hmono (k + 1) (by omega)
    omega

/-- Concrete instance of claim C1: a monotone fetcher with 7 non-empty
pages of 25 listings each is discovered as exactly 7 pages. -/
theorem C1_discovery_witness :
    get_num_pages (fun p => if 1 ≤ p ∧ p ≤ 7 then 25 else 0) none 1 =
      some (.ok 7) ∧
    0 < (fun p : Int => if 1 ≤ p ∧ p ≤ 7 then 25 else 0) 7 ∧
    (fun p : Int => if 1 ≤ p ∧ p ≤ 7 then 25 else 0) (7 + 1) = 0 := by
  refine C1_discovery_returns_threshold _ 7 (by norm_num) ?_ ?_ 1 (by norm_num)
  · intro p hp
    by_cases h : p ≤ 7
    · simp [h, hp]
    · simp [h]
  · calc (7 : Int) + 51 = 58 := by norm_num
    _ ≤ 2 ^ 6 := by norm_num
    _ ≤ 2 ^ 200 := by
      apply pow_le_pow_right₀ (by norm_num) (by omega)

/-- The fetcher refuting claim C1 as stated: perfectly monotone, with an
astronomically large threshold `2 ^ 250`. -/
def counts_big : Int → Nat := fun p => if 1 ≤ p ∧ p ≤ 2 ^ 250 then 1 else 0

/-- `counts_big` satisfies the claim's monotonicity premise with
threshold `k = 2 ^ 250`. -/
theorem counts_big_mono :
    ∀ p : Int, 1 ≤ p → (0 < counts_big p ↔ p ≤ 2 ^ 250) := by
  intro p hp
  unfold counts_big
  constructor
  · intro hpos
    by_contra hgt
    rw [if_neg (fun hand => hgt hand.2)] at hpos
    omega
  · intro hle
    rw [if_pos ⟨hp, hle⟩]
    omega

/-- For a monotone fetcher whose threshold is huge (at least `2 ^ 202`),
discovery does not return the threshold: phase 1 terminates (given
enough fuel) with a bracket so long that the bisection necessarily hits
the 200-iteration cap and raises the divergence fault. -/
theorem get_num_pages_diverges (counts : Int → Nat) (k : Int)
    (hmono : ∀ p : Int, 1 ≤ p → (0 < counts p ↔ p ≤ k))
    (hbig : 2 ^ 202 ≤ k) (fuel : Nat) (hfuel : k < 50 * fuel) :
    get_num_pages counts none fuel = some (.error .divergence) := by
  obtain ⟨f, rfl⟩ : ∃ f, fuel = f + 1 := ⟨fuel - 1, by omega⟩
  obtain ⟨u', h1, h2, h3⟩ :=
    find_upper_mono counts k hmono f 50 (by omega) (by omega)
  rw [get_num_pages, h1]
  refine congrArg some (bisect_loop_diverges counts 200 1 u' ?_)
  have e : (2 : Int) ^ (200 + 2) = 2 ^ 202 := by norm_num
  rw [e]
  omega

/-- C1 counterexample: the concrete monotone fetcher `counts_big` (its
threshold premise checked concretely around the boundary, and in full by
`counts_big_mono`) makes `get_num_pages` raise the divergence fault
instead of returning the threshold `2 ^ 250` the claim promises. -/
theorem C1_counterexample :
    get_num_pages counts_big none (2 ^ 245) = some (.error .divergence) ∧
    0 < counts_big 1 ∧ counts_big (2 ^ 250) = 1 ∧
    counts_big (2 ^ 250 + 1) = 0 := by
  have hbig : (1 : Int) ≤ 2 ^ 250 := by norm_num
  refine ⟨?_, ?_, ?_, ?_⟩
  · refine get_num_pages_diverges counts_big (2 ^ 250) counts_big_mono
      (pow_le_pow_right₀ (by norm_num) (by omega)) (2 ^ 245) (by norm_num)
  · unfold counts_big
    rw [if_pos ⟨le_refl _, hbig⟩]
    omega
  · unfold counts_big
    rw [if_pos ⟨hbig, le_refl _⟩]
  · unfold counts_big
    rw [if_neg (fun hand => by
      have := hand.2
      omega)]

/-! Claim C2: the divergence guard and oscillating fetchers. -/

/-- The oscillating (non-monotonic) fetcher: odd pages are non-empty,
even pages are empty. -/
def counts_osc : Int → Nat := fun p => if p % 2 = 1 then 1 else 0

/-- C2 counterexample: `counts_osc` is non-monotonic (page 1 non-empty,
page 2 empty, page 3 non-empty again), yet `get_num_pages` does NOT raise
the divergence fault: phase 1 stops at page 50 immediately and the
bisection terminates normally after a handful of iterations, returning a
(meaningless) count of 31.  Oscillation alone can never trip the
200-iteration cap because the bracket halves every iteration. -/
theorem C2_counterexample :
    (0 < counts_osc 1 ∧ counts_osc 2 = 0 ∧ 0 < counts_osc 3) ∧
    get_num_pages counts_osc none 1 = some (.ok 31) :=
  ⟨⟨Nat.one_pos, rfl, Nat.one_pos⟩, rfl⟩

/-- C2 (amended): the bisection loop cannot run forever, but not because
the cap fires on oscillation — for EVERY fetcher stub, oscillating or
not, the loop returns a value without raising whenever the initial
bracket length is below `2 ^ m - 1` for some `m` within the budget
(in particular any bracket below `2 ^ 200 - 1` at the entry budget of
200).  The divergence fault is reachable only from brackets of length at
least `2 ^ 202 - 2`, never from oscillating answers on feasible
brackets. -/
theorem C2_bisection_never_diverges (counts : Int → Nat) (m r : Nat)
    (lo hi : Int) (hmr : m ≤ r) (hn : hi + 1 - lo ≤ 2 ^ m - 1) :
    ∃ v, bisect_loop counts r lo hi = .ok v :=
  bisect_loop_halves counts m r lo hi hmr hn

/-- Concrete instance of the amended C2: the oscillating fetcher's
bisection over the bracket `[1, 50]` at full budget returns normally. -/
theorem C2_bisection_witness :
    ∃ v, bisect_loop counts_osc 200 1 50 = .ok v :=
  C2_bisection_never_diverges counts_osc 6 200 1 50 (by norm_num)
    (by norm_num)

/-! Claim C6: cached-value validation. -/

/-- C6: when the cached page count `k` satisfies the Pagination Invariant
(page `k` non-empty, page `k + 1` empty), `Group.validate_num_pages`
performs exactly the two validation requests, succeeds, keeps the cache,
and a subsequent `get_num_pages` returns the identical count `k` with no
discovery; whereas any cached value failing either check is discarded
(`num_pages` set to absent). -/
theorem C6_cache_validation (counts : Int → Nat) (k : Int) (fuel : Nat)
    (hinv1 : counts k ≠ 0) (hinv2 : counts (k + 1) = 0) :
    validate_num_pages counts (some k) = (true, some k, 2) ∧
    get_num_pages counts (some k) fuel = some (.ok k) ∧
    ∀ k' : Int, (counts k' = 0 ∨ counts (k' + 1) ≠ 0) →
      (validate_num_pages counts (some k')).2.1 = none := by
  refine ⟨?_, rfl, ?_⟩
  · rw [validate_num_pages, is_num_pages_valid, if_pos hinv1]
    simp [hinv2]
  · intro k' hk'
    rw [validate_num_pages, is_num_pages_valid]
    by_cases h0 : counts k' ≠ 0
    · rw [if_pos h0]
      have h1 : counts (k' + 1) ≠ 0 := by
        rcases hk' with h | h
        · exact absurd h h0
        · exact h
      simp [h1]
    · rw [if_neg h0]
      simp

/-- Concrete instance of claim C6: the 7-page fetcher validates its
cached count of 7 in two requests and rediscards a stale count of 3. -/
theorem C6_cache_validation_witness :
    validate_num_pages (fun p => if 1 ≤ p ∧ p ≤ 7 then 25 else 0) (some 7) =
      (true, some 7, 2) ∧
    get_num_pages (fun p => if 1 ≤ p ∧ p ≤ 7 then 25 else 0) (some 7) 1 =
      some (.ok 7) ∧
    (validate_num_pages (fun p => if 1 ≤ p ∧ p ≤ 7 then 25 else 0)
      (some 3)).2.1 = none := by
  have h := C6_cache_validation (fun p => if 1 ≤ p ∧ p ≤ 7 then 25 else 0)
    7 1 (by norm_num) (by norm_num)
  exact ⟨h.1, h.2.1, h.2.2 3 (by norm_num)⟩

/-!
The sampler (`scrape.py`, `Sampler.get_sample`).

One call to `group.get_random_company()` is modelled as an oracle giving,
for a global call index `t` and the name of the group being queried, one
of three outcomes mirroring how the `try` block in `get_sample`
dispatches: an `httpx.TimeoutException` from any fetch inside the
attempt, any other raised `Exception` (e.g. "changed number of pages
between requests, chosen page does not exist" when the drawn page has no
listings, or a contact-page scrape failure), or a successfully classified
company.  Randomness is an explicit stream of naturals; `random.choice`
reads the head modulo the list length.
-/

/-- A successfully classified company record, as far as the sampler
observes it (`Company` in `company.py` / `scrape.py`). -/
structure CompanyR where
  name : String
  group : String
  contacts_url : String
  emails : List String
deriving DecidableEq

/-- Outcome of one call to `group.get_random_company()` inside
`Sampler.get_sample`. -/
inductive AttemptOutcome where
  | timeout
  | failure
  | success (c : CompanyR)
deriving DecidableEq

/-- Result of `Sampler.get_sample`: a sample, a benign `None`, or the
fatal `Exception("Failed in all ... retries")`. -/
inductive SampleResult where
  | sample (c : CompanyR)
  | noSample
  | exhausted
deriving DecidableEq

/-- Observable outcome of one `get_sample` run: the result, the total
seconds slept in 60-second timeout backoffs, and the list of group names
passed to `get_random_company`, in call order. -/
structure GoOut where
  res : SampleResult
  slept : Nat
  queried : List String
deriving DecidableEq

/-- The `for retry in range(self.num_retries)` loop of
`Sampler.get_sample`, for the already-drawn group `g`.  `left` is the
number of loop iterations remaining (`num_retries - retry`), so the
source's `retry + 1 == self.num_retries` test is `left = 1`, checked here
inside the iteration as `left' = 0` after destructuring `left = left' + 1`;
`t` is the global call index fed to the oracle.  A timeout sleeps 60
seconds and falls through to the next loop iteration; any other caught
exception falls through directly; running out of iterations reaches the
trailing `raise`. -/
def sample_loop (oracle : Nat → String → AttemptOutcome) (g : String) :
    Nat → Nat → GoOut
  | 0, _ => ⟨.exhausted, 0, []⟩
  | left' + 1, t =>
    match oracle t g with
    | .success c =>
      if c.emails ≠ [] then ⟨.sample c, 0, [g]⟩
      else if left' = 0 then ⟨.noSample, 0, [g]⟩
      else
        let r := sample_loop oracle g left' (t + 1)
        ⟨r.res, r.slept, g :: r.queried⟩
    | .timeout =>
      let r := sample_loop oracle g left' (t + 1)
      ⟨r.res, 60 + r.slept, g :: r.queried⟩
    | .failure =>
      let r := sample_loop oracle g left' (t + 1)
      ⟨r.res, r.slept, g :: r.queried⟩

/-- `Sampler.get_sample`: `group = random.choice(self.groups)` happens
once, before the retry loop; the loop then always queries that group. -/
def get_sample (oracle : Nat → String → AttemptOutcome)
    (groups : List String) (num_retries : Nat) (s : List Nat) : GoOut :=
  sample_loop oracle (groups.getD (s.headD 0 % groups.length) "")
    num_retries 0

/-- Modelled from the spec: the sampler the specification describes,
whose retry "re-enters step 1 (re-draws section/page)" — every attempt
picks the section uniformly at random from all known sections, consuming
one draw from the randomness stream per attempt.  This definition follows
the spec's words and exists only to be compared with `get_sample`, which
is translated from the source. -/
def get_sample_redraw (oracle : Nat → String → AttemptOutcome)
    (groups : List String) : Nat → Nat → List Nat → GoOut
  | 0, _, _ => ⟨.exhausted, 0, []⟩
  | left' + 1, t, s =>
    let g := groups.getD (s.headD 0 % groups.length) ""
    match oracle t g with
    | .success c =>
      if c.emails ≠ [] then ⟨.sample c, 0, [g]⟩
      else if left' = 0 then ⟨.noSample, 0, [g]⟩
      else
        let r := get_sample_redraw oracle groups left' (t + 1) s.tail
        ⟨r.res, r.slept, g :: r.queried⟩
    | .timeout =>
      let r := get_sample_redraw oracle groups left' (t + 1) s.tail
      ⟨r.res, 60 + r.slept, g :: r.queried⟩
    | .failure =>
      let r := get_sample_redraw oracle groups left' (t + 1) s.tail
      ⟨r.res, r.slept, g :: r.queried⟩

/-! Claim C3: behaviour when the retry budget is exhausted. -/

/-- The oracle refuting claim C3: every attempt fails benignly with "no
candidates on the chosen page" (the raised `Exception` when the drawn
page has no listings, caught by the generic handler). -/
def oracle_no_candidates : Nat → String → AttemptOutcome :=
  fun _ _ => .failure

/-- C3 counterexample: with every failure being "no candidates", the code
does NOT return the benign `None` (`SampleResult.noSample`) — the retry
loop falls through and raises the fatal exhaustion error
(`SampleResult.exhausted`), because the `return None` path is reachable
only from the zero-emails branch on the final retry. -/
theorem C3_counterexample :
    (get_sample oracle_no_candidates ["A"] 2 []).res = .exhausted :=
  rfl

/-- Splitting a "no early success has e-mails" condition over `m + 1`
calls starting at `t` into the condition at call `t` and the condition
over `m` calls starting at `t + 1`. -/
theorem zero_email_cond_shift (oracle : Nat → String → AttemptOutcome)
    (g : String) (t m : Nat) :
    ((∀ i, i < m + 1 → ∀ c, oracle (t + i) g = .success c → c.emails = []) ↔
      ((∀ c, oracle t g = .success c → c.emails = []) ∧
       (∀ i, i < m → ∀ c, oracle (t + 1 + i) g = .success c →
         c.emails = []))) := by
  constructor
  · intro h
    refine ⟨fun c hc => h 0 (by omega) c (by simpa using hc), ?_⟩
    intro i hi c hc
    refine h (i + 1) (by omega) c ?_
    have e : t + (i + 1) = t + 1 + i := by omega
    rw [e]
    exact hc
  · rintro ⟨h0, h⟩ i hi c hc
    cases i with
    | zero => exact h0 c (by simpa using hc)
    | succ i' =>
      refine h i' (by omega) c ?_
      have e : t + 1 + i' = t + (i' + 1) := by omega
      rw [e]
      exact hc

/-- Complete characterization of the benign `None` outcome of the retry
loop: with budget `m + 1` starting at call `t`, the loop returns `None`
exactly when no call before the last one produced a company with
e-mails (any mix of zero-email companies, "no candidates" exceptions and
timeouts lets the loop continue) AND the last call produced a zero-email
company. -/
theorem sample_loop_noSample_iff (oracle : Nat → String → AttemptOutcome)
    (g : String) :
    ∀ (m t : Nat), ((sample_loop oracle g (m + 1) t).res = .noSample ↔
      ((∀ i, i < m → ∀ c, oracle (t + i) g = .success c → c.emails = []) ∧
       (∃ c, oracle (t + m) g = .success c ∧ c.emails = []))) := by
  intro m
  induction m with
  | zero =>
    intro t
    cases ho : oracle t g with
    | success c =>
      by_cases hce : c.emails = []
      · have hred : (sample_loop oracle g (0 + 1) t).res = .noSample := by
          rw [sample_loop, ho]
          simp [hce]
        rw [hred]
        refine iff_of_true rfl ⟨fun i hi => absurd hi (by omega), c, ?_, hce⟩
        simpa using ho
      · have hred : (sample_loop oracle g (0 + 1) t).res = .sample c := by
          rw [sample_loop, ho]
          simp [hce]
        rw [hred]
        refine iff_of_false (by simp) ?_
        rintro ⟨-, c', hc', hce'⟩
        simp only [Nat.add_zero, ho] at hc'
        injection hc' with h
        exact hce (h ▸ hce')
    | timeout =>
      have hred : (sample_loop oracle g (0 + 1) t).res = .exhausted := by
        rw [sample_loop, ho]
        simp [sample_loop]
      rw [hred]
      refine iff_of_false (by simp) ?_
      rintro ⟨-, c', hc', -⟩
      simp only [Nat.add_zero, ho] at hc'
      exact AttemptOutcome.noConfusion hc'
    | failure =>
      have hred : (sample_loop oracle g (0 + 1) t).res = .exhausted := by
        rw [sample_loop, ho]
        simp [sample_loop]
      rw [hred]
      refine iff_of_false (by simp) ?_
      rintro ⟨-, c', hc', -⟩
      simp only [Nat.add_zero, ho] at hc'
      exact AttemptOutcome.noConfusion hc'
  | succ m ih =>
    intro t
    cases ho : oracle t g with
    | success c =>
      by_cases hce : c.emails = []
      · have hred : (sample_loop oracle g (m + 1 + 1) t).res =
            (sample_loop oracle g (m + 1) (t + 1)).res := by
          rw [sample_loop, ho]
          simp [hce]
        rw [hred, ih (t + 1), zero_email_cond_shift oracle g t m,
          show t + (m + 1) = t + 1 + m by omega]
        constructor
        · rintro ⟨hA, hE⟩
          refine ⟨⟨?_, hA⟩, hE⟩
          intro c' hc'
          rw [ho] at hc'
          injection hc' with h
          exact h ▸ hce
        · rintro ⟨⟨-, hA⟩, hE⟩
          exact ⟨hA, hE⟩
      · have hred : (sample_loop oracle g (m + 1 + 1) t).res = .sample c := by
          rw [sample_loop, ho]
          simp [hce]
        rw [hred]
        refine iff_of_false (by simp) ?_
        rintro ⟨hA, -⟩
        refine hce (hA 0 (by omega) c ?_)
        simpa using ho
    | timeout =>
      have hred : (sample_loop oracle g (m + 1 + 1) t).res =
          (sample_loop oracle g (m + 1) (t + 1)).res := by
        rw [sample_loop, ho]
      rw [hred, ih (t + 1), zero_email_cond_shift oracle g t m,
        show t + (m + 1) = t + 1 + m by omega]
      constructor
      · rintro ⟨hA, hE⟩
        refine ⟨⟨fun c' hc' => ?_, hA⟩, hE⟩
        exact AttemptOutcome.noConfusion (ho.symm.trans hc')
      · rintro ⟨⟨-, hA⟩, hE⟩
        exact ⟨hA, hE⟩
    | failure =>
      have hred : (sample_loop oracle g (m + 1 + 1) t).res =
          (sample_loop oracle g (m + 1) (t + 1)).res := by
        rw [sample_loop, ho]
      rw [hred, ih (t + 1), zero_email_cond_shift oracle g t m,
        show t + (m + 1) = t + 1 + m by omega]
      constructor
      · rintro ⟨hA, hE⟩
        refine ⟨⟨fun c' hc' => ?_, hA⟩, hE⟩
        exact AttemptOutcome.noConfusion (ho.symm.trans hc')
      · rintro ⟨⟨-, hA⟩, hE⟩
        exact ⟨hA, hE⟩

/-- Complete characterization of the fatal outcome of the retry loop:
with budget `m + 1` starting at call `t`, the loop falls through to the
trailing raise exactly when no call before the last one produced a
company with e-mails AND the last call was a timeout or a caught
exception (anything but a classified company). -/
theorem sample_loop_exhausted_iff (oracle : Nat → String → AttemptOutcome)
    (g : String) :
    ∀ (m t : Nat), ((sample_loop oracle g (m + 1) t).res = .exhausted ↔
      ((∀ i, i < m → ∀ c, oracle (t + i) g = .success c → c.emails = []) ∧
       (oracle (t + m) g = .timeout ∨ oracle (t + m) g = .failure))) := by
  intro m
  induction m with
  | zero =>
    intro t
    cases ho : oracle t g with
    | success c =>
      by_cases hce : c.emails = []
      · have hred : (sample_loop oracle g (0 + 1) t).res = .noSample := by
          rw [sample_loop, ho]
          simp [hce]
        rw [hred]
        refine iff_of_false (by simp) ?_
        rintro ⟨-, h | h⟩ <;> simp only [Nat.add_zero, ho] at h <;>
          exact AttemptOutcome.noConfusion h
      · have hred : (sample_loop oracle g (0 + 1) t).res = .sample c := by
          rw [sample_loop, ho]
          simp [hce]
        rw [hred]
        refine iff_of_false (by simp) ?_
        rintro ⟨-, h | h⟩ <;> simp only [Nat.add_zero, ho] at h <;>
          exact AttemptOutcome.noConfusion h
    | timeout =>
      have hred : (sample_loop oracle g (0 + 1) t).res = .exhausted := by
        rw [sample_loop, ho]
        simp [sample_loop]
      rw [hred]
      refine iff_of_true rfl ⟨fun i hi => absurd hi (by omega), Or.inl ?_⟩
      simpa using ho
    | failure =>
      have hred : (sample_loop oracle g (0 + 1) t).res = .exhausted := by
        rw [sample_loop, ho]
        simp [sample_loop]
      rw [hred]
      refine iff_of_true rfl ⟨fun i hi => absurd hi (by omega), Or.inr ?_⟩
      simpa using ho
  | succ m ih =>
    intro t
    cases ho : oracle t g with
    | success c =>
      by_cases hce : c.emails = []
      · have hred : (sample_loop oracle g (m + 1 + 1) t).res =
            (sample_loop oracle g (m + 1) (t + 1)).res := by
          rw [sample_loop, ho]
          simp [hce]
        rw [hred, ih (t + 1), zero_email_cond_shift oracle g t m,
          show t + (m + 1) = t + 1 + m by omega]
        constructor
        · rintro ⟨hA, hE⟩
          refine ⟨⟨?_, hA⟩, hE⟩
          intro c' hc'
          rw [ho] at hc'
          injection hc' with h
          exact h ▸ hce
        · rintro ⟨⟨-, hA⟩, hE⟩
          exact ⟨hA, hE⟩
      · have hred : (sample_loop oracle g (m + 1 + 1) t).res = .sample c := by
          rw [sample_loop, ho]
          simp [hce]
        rw [hred]
        refine iff_of_false (by simp) ?_
        rintro ⟨hA, -⟩
        refine hce (hA 0 (by omega) c ?_)
        simpa using ho
    | timeout =>
      have hred : (sample_loop oracle g (m + 1 + 1) t).res =
          (sample_loop oracle g (m + 1) (t + 1)).res := by
        rw [sample_loop, ho]
      rw [hred, ih (t + 1), zero_email_cond_shift oracle g t m,
        show t + (m + 1) = t + 1 + m by omega]
      constructor
      · rintro ⟨hA, hE⟩
        refine ⟨⟨fun c' hc' => ?_, hA⟩, hE⟩
        exact AttemptOutcome.noConfusion (ho.symm.trans hc')
      · rintro ⟨⟨-, hA⟩, hE⟩
        exact ⟨hA, hE⟩
    | failure =>
      have hred : (sample_loop oracle g (m + 1 + 1) t).res =
          (sample_loop oracle g (m + 1) (t + 1)).res := by
        rw [sample_loop, ho]
      rw [hred, ih (t + 1), zero_email_cond_shift oracle g t m,
        show t + (m + 1) = t + 1 + m by omega]
      constructor
      · rintro ⟨hA, hE⟩
        refine ⟨⟨fun c' hc' => ?_, hA⟩, hE⟩
        exact AttemptOutcome.noConfusion (ho.symm.trans hc')
      · rintro ⟨⟨-, hA⟩, hE⟩
        exact ⟨hA, hE⟩

/-- C3 (amended): for any mix of attempt outcomes, `get_sample` returns
the benign `None` EXACTLY when no attempt before the last one yielded a
company with e-mails and the final retry's outcome was a zero-email
company — regardless of what earlier progress the loop made; and it
raises the fatal exhaustion error EXACTLY when no attempt before the
last one yielded a company with e-mails and the final retry's outcome
was a timeout or a caught exception (e.g. "no candidates on the chosen
page"). -/
theorem C3_exhaustion_paths (oracle : Nat → String → AttemptOutcome)
    (groups : List String) (n : Nat) (s : List Nat) (hn : 1 ≤ n) :
    ((get_sample oracle groups n s).res = .noSample ↔
      ((∀ i, i + 1 < n → ∀ c,
          oracle i (groups.getD (s.headD 0 % groups.length) "") =
            .success c → c.emails = []) ∧
       (∃ c, oracle (n - 1) (groups.getD (s.headD 0 % groups.length) "") =
          .success c ∧ c.emails = []))) ∧
    ((get_sample oracle groups n s).res = .exhausted ↔
      ((∀ i, i + 1 < n → ∀ c,
          oracle i (groups.getD (s.headD 0 % groups.length) "") =
            .success c → c.emails = []) ∧
       (oracle (n - 1) (groups.getD (s.headD 0 % groups.length) "") =
          .timeout ∨
        oracle (n - 1) (groups.getD (s.headD 0 % groups.length) "") =
          .failure))) := by
  obtain ⟨m, rfl⟩ : ∃ m, n = m + 1 := ⟨n - 1, by omega⟩
  rw [get_sample]
  constructor
  · have h := sample_loop_noSample_iff oracle
      (groups.getD (s.headD 0 % groups.length) "") m 0
    simpa using h
  · have h := sample_loop_exhausted_iff oracle
      (groups.getD (s.headD 0 % groups.length) "") m 0
    simpa using h

/-- A mixed run ending benignly: a "no candidates" exception, then a
zero-email company on the final retry. -/
def oracle_mixed_benign : Nat → String → AttemptOutcome :=
  fun t _ => if t = 0 then .failure else .success ⟨"A", "A", "u", []⟩

/-- A mixed run ending fatally: a zero-email company, then a "no
candidates" exception on the final retry. -/
def oracle_mixed_fatal : Nat → String → AttemptOutcome :=
  fun t _ => if t = 0 then .success ⟨"A", "A", "u", []⟩ else .failure

/-- Concrete instances of the amended C3 on MIXED runs: a "no
candidates" failure followed by a final zero-email company yields
`None`, while a zero-email company followed by a final "no candidates"
failure raises the fatal error — the outcome of the final retry alone
decides. -/
theorem C3_exhaustion_witness :
    (get_sample oracle_mixed_benign ["A"] 2 []).res = .noSample ∧
    (get_sample oracle_mixed_fatal ["A"] 2 []).res = .exhausted := by
  constructor
  · refine (C3_exhaustion_paths oracle_mixed_benign ["A"] 2 []
      (by norm_num)).1.mpr ⟨?_, ⟨"A", "A", "u", []⟩, rfl, rfl⟩
    intro i hi c hc
    have h0 : i = 0 := by omega
    subst h0
    simp [oracle_mixed_benign] at hc
  · refine (C3_exhaustion_paths oracle_mixed_fatal ["A"] 2 []
      (by norm_num)).2.mpr ⟨?_, Or.inr rfl⟩
    intro i hi c hc
    have h0 : i = 0 := by omega
    subst h0
    simp [oracle_mixed_fatal] at hc
    rw [← hc]

/-! Claim C4: timeouts and the retry budget. -/

/-- The oracle refuting claim C4: the first call times out, every later
call yields a company with an email. -/
def oracle_timeout_then_ok : Nat → String → AttemptOutcome :=
  fun t _ =>
    if t = 0 then .timeout else .success ⟨"G", "G", "u", ["mailto:g@g.cz"]⟩

/-- C4 counterexample: with retry budget 1, a single timeout (after its
60-second sleep) exhausts the loop and raises the fatal error even though
the very next attempt would have succeeded — so the number of retries
remaining is NOT preserved across a timeout.  With budget 2 the same
oracle succeeds, confirming the timeout consumed exactly one retry. -/
theorem C4_counterexample :
    (get_sample oracle_timeout_then_ok ["G"] 1 []).res = .exhausted ∧
    (get_sample oracle_timeout_then_ok ["G"] 1 []).slept = 60 ∧
    (get_sample oracle_timeout_then_ok ["G"] 2 []).res =
      .sample ⟨"G", "G", "u", ["mailto:g@g.cz"]⟩ :=
  ⟨rfl, rfl, rfl⟩

/-- C4 (amended): a `TransportTimeout` during an attempt makes
`get_sample` sleep the fixed 60-second backoff and then fall through to
the NEXT iteration of the retry loop, consuming one retry per timeout:
`k` leading timeouts leave the loop in the state it would be in with `k`
fewer retries of budget starting `k` calls later, plus `60 * k` seconds
of backoff sleep. -/
theorem C4_timeout_consumes_retry (oracle : Nat → String → AttemptOutcome)
    (g : String) (k : Nat) :
    ∀ (left t : Nat), (∀ i, i < k → oracle (t + i) g = .timeout) → k ≤ left →
      (sample_loop oracle g left t).res =
        (sample_loop oracle g (left - k) (t + k)).res ∧
      (sample_loop oracle g left t).slept =
        60 * k + (sample_loop oracle g (left - k) (t + k)).slept := by
  induction k with
  | zero =>
    intro left t _ _
    simp
  | succ k ih =>
    intro left t hto hk
    obtain ⟨l, rfl⟩ : ∃ l, left = l + 1 := ⟨left - 1, by omega⟩
    have h0 : oracle t g = .timeout := by
      have := hto 0 (by omega)
      simpa using this
    rw [sample_loop, h0]
    have hto' : ∀ i, i < k → oracle (t + 1 + i) g = .timeout := by
      intro i hi
      have := hto (i + 1) (by omega)
      rw [← this]
      ring_nf
    obtain ⟨ih1, ih2⟩ := ih l (t + 1) hto' (by omega)
    have harg1 : l - k = l + 1 - (k + 1) := by omega
    have harg2 : t + 1 + k = t + (k + 1) := by omega
    rw [harg1, harg2] at ih1 ih2
    exact ⟨ih1, by simpa [ih2] using by ring⟩

/-- Concrete instance of the amended C4: one leading timeout with budget
2 behaves like budget 1 starting one call later, plus 60 seconds. -/
theorem C4_timeout_witness :
    (sample_loop oracle_timeout_then_ok "G" 2 0).res =
      (sample_loop oracle_timeout_then_ok "G" 1 1).res ∧
    (sample_loop oracle_timeout_then_ok "G" 2 0).slept =
      60 * 1 + (sample_loop oracle_timeout_then_ok "G" 1 1).slept :=
  C4_timeout_consumes_retry oracle_timeout_then_ok "G" 1 2 0
    (fun i hi => by
      have : i = 0 := by omega
      subst this
      rfl)
    (by norm_num)

/-! Claim C5: which section a retry queries. -/

/-- The oracle refuting claim C5: group "A" always yields a zero-email
company, group "B" always yields a company with an email. -/
def oracle_two_groups : Nat → String → AttemptOutcome :=
  fun _ name =>
    if name = "B" then .success ⟨"B", "B", "ub", ["mailto:b@b.cz"]⟩
    else .success ⟨"A", "A", "ua", []⟩

/-- C5 counterexample: with groups `["A", "B"]`, budget 2 and a
randomness stream whose draws are `0, 1`, the code keeps querying the
initially drawn group "A" after the zero-email failure and ends with no
sample, while the sampler described by the spec — which re-draws the
section at every attempt — would draw "B" on the second attempt and
return its company.  The two disagree, so `get_sample` does not re-draw
the section. -/
theorem C5_counterexample :
    (get_sample oracle_two_groups ["A", "B"] 2 [0, 1]).res = .noSample ∧
    (get_sample_redraw oracle_two_groups ["A", "B"] 2 0 [0, 1]).res =
      .sample ⟨"B", "B", "ub", ["mailto:b@b.cz"]⟩ :=
  ⟨rfl, rfl⟩

/-- C5 (amended): after a zero-email failure the next attempt re-draws
only the page and listing; the section is the one drawn once before the
retry loop, and every call `get_sample` makes queries exactly that
section. -/
theorem C5_section_never_redrawn (oracle : Nat → String → AttemptOutcome)
    (groups : List String) (n : Nat) (s : List Nat) :
    ((get_sample oracle groups n s).queried.all
      (fun q => q == groups.getD (s.headD 0 % groups.length) "")) = true := by
  rw [get_sample]
  generalize (groups.getD (s.headD 0 % groups.length) "") = g
  have : ∀ left t, ((sample_loop oracle g left t).queried.all
      (fun q => q == g)) = true := by
    intro left
    induction left with
    | zero => intro t; rfl
    | succ left ih =>
      intro t
      rw [sample_loop]
      cases oracle t g with
      | success c =>
        by_cases hc : c.emails ≠ []
        · simp [hc]
        · by_cases hl : left = 0
          · simp [hc, hl]
          · simp [hc, hl]
            intro x hx
            exact eq_of_beq (List.all_eq_true.mp (ih (t + 1)) x hx)
      | timeout =>
        simp
        intro x hx
        exact eq_of_beq (List.all_eq_true.mp (ih (t + 1)) x hx)
      | failure =>
        simp
        intro x hx
        exact eq_of_beq (List.all_eq_true.mp (ih (t + 1)) x hx)
  exact this n 0

/-!
The run driver (`scrape.py`, `run_sampling`).

The sampling loop and the `try/finally` around it are modelled with an
explicit event trace: writing a sampled company to the output CSV and
saving the page-count cache (`sampler.store_group_cache`) are recorded as
events.  Each iteration's `sampler.get_sample()` outcome is supplied by a
result stream indexed by call number; `.exhausted` stands for the fatal
exception propagating out of the loop.  `fuel` bounds the loop unfolding
(`none` = the loop is still running, e.g. an endless run of `None`
results). -/

/-- Observable events of a `run_sampling` run. -/
inductive RunEvent where
  | wrote (name : String)
  | savedCache
deriving DecidableEq

/-- The `while collected_samples < requested_samples` loop of
`run_sampling`: a sample is written and counted, a `None` result is
skipped without counting, and a fatal `get_sample` error propagates. -/
def collect_loop (results : Nat → SampleResult) (requested : Nat) :
    Nat → Nat → Nat → Option (Except Unit Unit × List RunEvent)
  | 0, _, _ => none
  | fuel + 1, collected, i =>
    if requested ≤ collected then some (.ok (), [])
    else
      match results i with
      | .sample c =>
        (collect_loop results requested fuel (collected + 1) (i + 1)).map
          (fun out => (out.1, .wrote c.name :: out.2))
      | .noSample => collect_loop results requested fuel collected (i + 1)
      | .exhausted => some (.error (), [])

/-- `run_sampling`: the loop runs inside `try`, and the `finally` block
saves the page-count cache after the loop ends — whether it returned
normally or an exception is propagating. -/
def run_sampling (results : Nat → SampleResult) (requested fuel : Nat) :
    Option (Except Unit Unit × List RunEvent) :=
  match collect_loop results requested fuel 0 0 with
  | none => none
  | some out => some (out.1, out.2 ++ [.savedCache])

/-- The sampling loop itself never saves the cache. -/
theorem collect_loop_no_save (results : Nat → SampleResult) (requested : Nat) :
    ∀ (fuel collected i : Nat) (out : Except Unit Unit × List RunEvent),
      collect_loop results requested fuel collected i = some out →
      RunEvent.savedCache ∉ out.2 := by
  intro fuel
  induction fuel with
  | zero => intro collected i out h; exact Option.noConfusion h
  | succ fuel ih =>
    intro collected i out h
    rw [collect_loop] at h
    by_cases hreq : requested ≤ collected
    · rw [if_pos hreq] at h
      cases h
      simp
    · rw [if_neg hreq] at h
      cases hres : results i with
      | sample c =>
        rw [hres] at h
        cases hrec : collect_loop results requested fuel (collected + 1) (i + 1) with
        | none => rw [hrec] at h; exact Option.noConfusion h
        | some out' =>
          rw [hrec] at h
          cases h
          have := ih (collected + 1) (i + 1) out' hrec
          simp [this]
      | noSample =>
        rw [hres] at h
        exact ih collected (i + 1) out h
      | exhausted =>
        rw [hres] at h
        cases h
        simp

/-- C9: whenever the run terminates — with the requested number of
samples collected, or with a fatal error propagating out of the sampling
loop — the page-count cache is saved exactly once, and the save is the
last thing that happens. -/
theorem C9_cache_saved_once (results : Nat → SampleResult)
    (requested fuel : Nat) (out : Except Unit Unit × List RunEvent)
    (h : run_sampling results requested fuel = some out) :
    out.2.count RunEvent.savedCache = 1 ∧
    out.2.getLast? = some RunEvent.savedCache := by
  rw [run_sampling] at h
  cases hc : collect_loop results requested fuel 0 0 with
  | none => rw [hc] at h; exact Option.noConfusion h
  | some body =>
    rw [hc] at h
    cases h
    have hns := collect_loop_no_save results requested fuel 0 0 body hc
    constructor
    · simp [List.count_append, List.count_eq_zero.mpr hns]
    · simp

/-- Concrete instance of C9: a run whose first `get_sample` raises the
fatal exhaustion error still saves the cache once, as its last event. -/
theorem C9_cache_saved_witness :
    ((.error (), [RunEvent.savedCache]) :
        Except Unit Unit × List RunEvent).2.count RunEvent.savedCache = 1 ∧
    ((.error (), [RunEvent.savedCache]) :
        Except Unit Unit × List RunEvent).2.getLast? =
      some RunEvent.savedCache :=
  C9_cache_saved_once (fun _ => .exhausted) 1 1 (.error (), [.savedCache]) rfl

/-!
The contact-page classifier (`company.py`) and listing extraction
(`group.py`).

Fetched HTML documents are modelled as an abstract DOM tree.  The
BeautifulSoup operations the source uses map to: `find(...)` = first
matching node in document preorder, `find_all(...)` = all matching nodes
in preorder, `.string` = the single nested string of a node (or absent),
`.stripped_strings` = all descendant strings, stripped, the empty ones
dropped, `.parent` = tree parent (the chain ends at the document node,
whose own parent is absent).  Attribute access `node["href"]` on a
missing attribute (Python `KeyError`) and method calls on an absent
`find` result (Python `AttributeError`) are modelled as distinct
errors.  A page is the document node; its attributes are never
inspected. -/

mutual
/-- A DOM node: an element with a tag, attributes and children, or a
text node. -/
inductive Node where
  | elem (tag : String) (attrs : List (String × String)) (children : Forest)
  | text (s : String)
/-- A sequence of sibling DOM nodes. -/
inductive Forest where
  | nil
  | cons (n : Node) (f : Forest)
end

/-- Build a `Forest` from a list, for writing fixtures. -/
def forestOf : List Node → Forest
  | [] => .nil
  | n :: rest => .cons n (forestOf rest)

/-- Children of a node (a text node has none). -/
def childrenOf : Node → Forest
  | .elem _ _ cs => cs
  | .text _ => .nil

/-- Children of a node as a list. -/
def childList : Node → List Node
  | .elem _ _ cs => listOfForest cs
  | .text _ => []
where
  listOfForest : Forest → List Node
    | .nil => []
    | .cons n f => n :: listOfForest f

/-- First attribute value for a key, if any. -/
def attrOf (n : Node) (key : String) : Option String :=
  match n with
  | .elem _ attrs _ => attrs.lookup key
  | .text _ => none

mutual
/-- First node satisfying `p` in preorder, the node itself included
(`soup.find(...)` starting below the node passed to `find_forest`). -/
def find_node (p : Node → Bool) : Node → Option Node
  | .elem t a cs =>
    if p (.elem t a cs) then some (.elem t a cs) else find_forest p cs
  | .text s => if p (.text s) then some (.text s) else none
/-- First node satisfying `p` in a forest, in document preorder. -/
def find_forest (p : Node → Bool) : Forest → Option Node
  | .nil => none
  | .cons c rest =>
    match find_node p c with
    | some r => some r
    | none => find_forest p rest
end

mutual
/-- All nodes satisfying `p` in preorder (`find_all`). -/
def find_all_node (p : Node → Bool) : Node → List Node
  | .elem t a cs =>
    (if p (.elem t a cs) then [Node.elem t a cs] else []) ++ find_all_forest p cs
  | .text s => if p (.text s) then [Node.text s] else []
/-- All nodes satisfying `p` in a forest, in document preorder. -/
def find_all_forest (p : Node → Bool) : Forest → List Node
  | .nil => []
  | .cons c rest => find_all_node p c ++ find_all_forest p rest
end

mutual
/-- First node satisfying `p` in preorder, returned with its strict
ancestors, nearest first (the document node is not included). -/
def find_path_node (p : Node → Bool) : Node → Option (Node × List Node)
  | .elem t a cs =>
    if p (.elem t a cs) then some (.elem t a cs, [])
    else
      match find_path_forest p cs with
      | some (r, anc) => some (r, anc ++ [Node.elem t a cs])
      | none => none
  | .text s => if p (.text s) then some (.text s, []) else none
/-- First node satisfying `p` in a forest, with its ancestors. -/
def find_path_forest (p : Node → Bool) : Forest → Option (Node × List Node)
  | .nil => none
  | .cons c rest =>
    match find_path_node p c with
    | some x => some x
    | none => find_path_forest p rest
end

mutual
/-- BeautifulSoup `.string`: the string of the unique child, absent when
the node has zero or several children. -/
def node_string : Node → Option String
  | .text s => some s
  | .elem _ _ cs => forest_string cs
/-- The `.string` of a one-node forest. -/
def forest_string : Forest → Option String
  | .cons c .nil => node_string c
  | _ => none
end

mutual
/-- All descendant text fragments of a node, in document order. -/
def node_strings : Node → List String
  | .text s => [s]
  | .elem _ _ cs => forest_strings cs
/-- All descendant text fragments of a forest. -/
def forest_strings : Forest → List String
  | .nil => []
  | .cons c rest => node_strings c ++ forest_strings rest
end

/-- BeautifulSoup `.stripped_strings`: descendant strings, stripped of
surrounding whitespace, the ones that become empty dropped. -/
def stripped_strings (n : Node) : List String :=
  ((node_strings n).map String.trim).filter (· ≠ "")

mutual
/-- Whether some descendant text node equals `s` exactly
(`soup.find(string=...)` succeeding). -/
def node_has_text (s : String) : Node → Bool
  | .text t => t == s
  | .elem _ _ cs => forest_has_text s cs
/-- Whether some text node in the forest equals `s`. -/
def forest_has_text (s : String) : Forest → Bool
  | .nil => false
  | .cons c rest => node_has_text s c || forest_has_text s rest
end

/-- Matches `find(id=v)`. -/
def has_id (v : String) (n : Node) : Bool := attrOf n "id" == some v

/-- Matches `find(attrs=...)` on `itemprop`. -/
def has_itemprop (v : String) (n : Node) : Bool := attrOf n "itemprop" == some v

/-- Matches `find(name=t)` (tag name). -/
def has_tag (t : String) (n : Node) : Bool :=
  match n with
  | .elem tg _ _ => tg == t
  | .text _ => false

/-- Split a character list into space-separated words (the word list of
an HTML `class` attribute value).  The accumulator holds the current
word, reversed. -/
def split_on_space : List Char → List Char → List (List Char)
  | [], cur => [cur.reverse]
  | c :: rest, cur =>
    if c = ' ' then cur.reverse :: split_on_space rest []
    else split_on_space rest (c :: cur)

/-- Matches `find(class_=w)`: the `class` attribute, split on spaces,
contains the word. -/
def has_css_word (w : String) (n : Node) : Bool :=
  match attrOf n "class" with
  | some s => (split_on_space s.toList []).contains w.toList
  | none => false

/-- Matches `find(name="a", href=re.compile("^mailto:"))`. -/
def is_mailto_anchor (n : Node) : Bool :=
  has_tag "a" n &&
    ((attrOf n "href").elim false
      (fun h => List.isPrefixOf "mailto:".toList h.toList))

/-- Matches `find(id="h1Nadpis", attrs=...)` with `itemprop=legalName`. -/
def is_legal_name (n : Node) : Bool :=
  has_id "h1Nadpis" n && has_itemprop "legalName" n

/-- Matches `find(name="a", href=re.compile("/kontakt$"))`. -/
def is_kontakt_anchor (n : Node) : Bool :=
  has_tag "a" n &&
    ((attrOf n "href").elim false
      (fun h => List.isSuffixOf "/kontakt".toList h.toList))

/-- Errors of `Company.scrape_company` and its helpers (Python raises:
`Exception` subclasses, `AssertionError` from the constructor's
`assert name is not None`, `AttributeError`/`KeyError` from operating on
absent nodes or attributes). -/
inductive CompanyErr where
  | httpError (status : Nat)
  | missingName
  | malformedB1 (url : String)
  | malformedB2 (url : String)
  | unknownFormat (url : String)
  | attrMissing
  | keyMissing
deriving DecidableEq

/-- `node["href"]` (Python `KeyError` when absent). -/
def get_href (n : Node) : Except CompanyErr String :=
  match attrOf n "href" with
  | some h => .ok h
  | none => .error .keyMissing

/-- The sentinel text of a terminated business on a variant-C page. -/
def terminated_sentinel : String := "Živnost subjektu byla ukončena."

/-- `scrape_contacts_v1`: every anchor href below `itemprop=email` spans
inside the first `contact-table` container. -/
def scrape_contacts_v1 (page : Node) : Except CompanyErr (List String) :=
  match find_forest (has_css_word "contact-table") (childrenOf page) with
  | none => .error .attrMissing
  | some tbl =>
    let spans := find_all_forest (has_itemprop "email") (childrenOf tbl)
    let anchors := spans.flatMap (fun sp => find_all_forest (has_tag "a") (childrenOf sp))
    anchors.mapM get_href

/-- `scrape_contacts_v2`: as v1, but below the `divContacts` container. -/
def scrape_contacts_v2 (page : Node) : Except CompanyErr (List String) :=
  match find_forest (has_id "divContacts") (childrenOf page) with
  | none => .error .attrMissing
  | some dc =>
    let spans := find_all_forest (has_itemprop "email") (childrenOf dc)
    let anchors := spans.flatMap (fun sp => find_all_forest (has_tag "a") (childrenOf sp))
    anchors.mapM get_href

/-- `scrape_contacts_v3`: empty e-mail list on the terminated-business
sentinel; otherwise every `mailto:` anchor inside the grandparent of the
legal-name heading (`name_elem.parent.parent`; if the heading sits at
depth ≤ 1 the grandparent is absent and Python dies on `None`). -/
def scrape_contacts_v3 (page : Node) : Except CompanyErr (List String) :=
  if forest_has_text terminated_sentinel (childrenOf page) then .ok []
  else
    match find_path_forest is_legal_name (childrenOf page) with
    | none => .error .attrMissing
    | some (_, anc) =>
      match (anc ++ [page]).get? 1 with
      | none => .error .attrMissing
      | some gp =>
        (find_all_forest is_mailto_anchor (childrenOf gp)).mapM get_href

/-- `Company.__init__`: `assert (name is not None)` — an absent name
fails, any present string (even empty) is accepted. -/
def mk_company (name : Option String) (group url : String)
    (emails : List String) : Except CompanyErr CompanyR :=
  match name with
  | none => .error .missingName
  | some n => .ok ⟨n, group, url, emails⟩

/-- Variant A of `scrape_company`: name from the marker's `.string`,
e-mails from `scrape_contacts_v1`. -/
def variant_a (page name_elem : Node) (group url : String) :
    Except CompanyErr CompanyR := do
  let emails ← scrape_contacts_v1 page
  mk_company (node_string name_elem) group url emails

/-- Variant B of `scrape_company`: inside `divContacts` an `h1` must
exist, and inside it a `span`; the name is the span's `.string`,
e-mails from `scrape_contacts_v2`. -/
def variant_b (page dc : Node) (group url : String) :
    Except CompanyErr CompanyR :=
  match find_forest (has_tag "h1") (childrenOf dc) with
  | none => .error (.malformedB1 url)
  | some h1 =>
    match find_forest (has_tag "span") (childrenOf h1) with
    | none => .error (.malformedB2 url)
    | some sp => do
      let emails ← scrape_contacts_v2 page
      mk_company (node_string sp) group url emails

/-- Variant C of `scrape_company`: name from the heading's `.string`
when it has a single child, otherwise the whitespace-join of its
stripped strings; e-mails from `scrape_contacts_v3`. -/
def variant_c (page name_elem : Node) (group url : String) :
    Except CompanyErr CompanyR := do
  let name : Option String :=
    if (childList name_elem).length == 1 then node_string name_elem
    else some (" ".intercalate (stripped_strings name_elem))
  let emails ← scrape_contacts_v3 page
  mk_company name group url emails

/-- `Company.scrape_company`: reject non-200 responses, then try the
three layout markers in order — `h3CompanyName`, then `divContacts`,
then the `h1Nadpis`/`legalName` heading — and fail with the
unknown-format error carrying the contact URL when none matches. -/
def scrape_company (status : Nat) (page : Node) (url group : String) :
    Except CompanyErr CompanyR :=
  if status ≠ 200 then .error (.httpError status)
  else
    match find_forest (has_id "h3CompanyName") (childrenOf page) with
    | some ne => variant_a page ne group url
    | none =>
      match find_forest (has_id "divContacts") (childrenOf page) with
      | some dc => variant_b page dc group url
      | none =>
        match find_forest is_legal_name (childrenOf page) with
        | some ne => variant_c page ne group url
        | none => .error (.unknownFormat url)

/-- `Group.get_company_urls_on_page` (group.py), given the listing
container's company divs and the exclude set: each div's first
`/kontakt`-anchored link is collected unless excluded, and a div with no
such link makes the function return the URLs collected so far,
silently dropping the rest of the page. -/
def get_company_urls_on_page (divs : List Node) (exclude : List String) :
    List String :=
  match divs with
  | [] => []
  | d :: rest =>
    match find_forest is_kontakt_anchor (childrenOf d) with
    | none => []
    | some a =>
      let url := (attrOf a "href").getD ""
      if url ∈ exclude then get_company_urls_on_page rest exclude
      else url :: get_company_urls_on_page rest exclude

/-! Claim C8: layout detection order. -/

/-- C8: the classifier's three layout markers are tested in a fixed
order with the first match winning — the `h3CompanyName` marker always
selects variant A; the `divContacts` container selects variant B exactly
when A's marker is absent; the legal-name heading selects variant C
exactly when both earlier markers are absent; and when no marker matches,
the result is the fatal unknown-format error carrying the contact URL. -/
theorem C8_layout_detection (status : Nat) (page : Node) (url group : String)
    (h200 : status = 200) :
    (∀ ne, find_forest (has_id "h3CompanyName") (childrenOf page) = some ne →
      scrape_company status page url group = variant_a page ne group url) ∧
    (find_forest (has_id "h3CompanyName") (childrenOf page) = none →
      ∀ dc, find_forest (has_id "divContacts") (childrenOf page) = some dc →
        scrape_company status page url group = variant_b page dc group url) ∧
    (find_forest (has_id "h3CompanyName") (childrenOf page) = none →
      find_forest (has_id "divContacts") (childrenOf page) = none →
      ∀ ne, find_forest is_legal_name (childrenOf page) = some ne →
        scrape_company status page url group = variant_c page ne group url) ∧
    (find_forest (has_id "h3CompanyName") (childrenOf page) = none →
      find_forest (has_id "divContacts") (childrenOf page) = none →
      find_forest is_legal_name (childrenOf page) = none →
        scrape_company status page url group = .error (.unknownFormat url)) := by
  subst h200
  refine ⟨?_, ?_, ?_, ?_⟩
  · intro ne hne
    simp [scrape_company, hne]
  · intro hA dc hdc
    simp [scrape_company, hA, hdc]
  · intro hA hB ne hne
    simp [scrape_company, hA, hB, hne]
  · intro hA hB hC
    simp [scrape_company, hA, hB, hC]

/-- A page with no recognizable layout marker at all. -/
def page_unknown : Node := .elem "[document]" [] .nil

/-- Concrete instance of C8: the marker-free page is classified as the
unknown-format error carrying the contact URL. -/
theorem C8_layout_witness :
    scrape_company 200 page_unknown "u" "g" = .error (.unknownFormat "u") :=
  (C8_layout_detection 200 page_unknown "u" "g" rfl).2.2.2 rfl rfl rfl

/-! Claim C7: names of constructed company records. -/

/-- The variant-A page refuting claim C7: the company-name marker's
single child is the empty text fragment, so the resolved name is the
empty string — present, hence accepted by `assert (name is not None)`. -/
def page_a_empty_name : Node :=
  .elem "[document]" [] (forestOf [
    .elem "h3" [("id", "h3CompanyName")] (forestOf [.text ""]),
    .elem "table" [("class", "contact-table")] .nil])

/-- C7 counterexample: classification succeeds and constructs a company
record whose name is the empty string — the constructor checks only for
an absent name, not for an empty one, so a record with an empty name is
constructible, contrary to the claim. -/
theorem C7_counterexample :
    scrape_company 200 page_a_empty_name "u" "g" = .ok ⟨"", "g", "u", []⟩ :=
  rfl

/-- C7 (amended): classification fails (the constructor's assertion)
whenever the resolved name is ABSENT — in variant A when the marker's
`.string` is absent, in variant B when the span's `.string` is absent,
in variant C when the single-child heading's `.string` is absent; an
empty-but-present name is not rejected. -/
theorem C7_absent_name_rejected (page : Node) (url group : String) :
    (∀ ne es, find_forest (has_id "h3CompanyName") (childrenOf page) = some ne →
      node_string ne = none → scrape_contacts_v1 page = .ok es →
      scrape_company 200 page url group = .error .missingName) ∧
    (∀ dc h1 sp es,
      find_forest (has_id "h3CompanyName") (childrenOf page) = none →
      find_forest (has_id "divContacts") (childrenOf page) = some dc →
      find_forest (has_tag "h1") (childrenOf dc) = some h1 →
      find_forest (has_tag "span") (childrenOf h1) = some sp →
      node_string sp = none → scrape_contacts_v2 page = .ok es →
      scrape_company 200 page url group = .error .missingName) ∧
    (∀ ne es, find_forest (has_id "h3CompanyName") (childrenOf page) = none →
      find_forest (has_id "divContacts") (childrenOf page) = none →
      find_forest is_legal_name (childrenOf page) = some ne →
      (childList ne).length = 1 → node_string ne = none →
      scrape_contacts_v3 page = .ok es →
      scrape_company 200 page url group = .error .missingName) := by
  refine ⟨?_, ?_, ?_⟩
  · intro ne es h1 h2 h3
    simp [scrape_company, variant_a, h1, h2, h3, mk_company]
    rfl
  · intro dc h1 sp es hA hdc hh1 hsp hns hv2
    simp [scrape_company, variant_b, hA, hdc, hh1, hsp, hns, hv2, mk_company]
    rfl
  · intro ne es hA hB hne hlen hns hv3
    simp [scrape_company, variant_c, hA, hB, hne, hlen, hns, hv3, mk_company]
    rfl

/-- A variant-A page whose company-name marker has two children, so its
`.string` is absent. -/
def page_a_absent_name : Node :=
  .elem "[document]" [] (forestOf [
    .elem "h3" [("id", "h3CompanyName")]
      (forestOf [.text "x", .elem "br" [] .nil]),
    .elem "table" [("class", "contact-table")] .nil])

/-- Concrete instance of the amended C7: the two-children marker page is
rejected with the absent-name assertion failure. -/
theorem C7_absent_name_witness :
    scrape_company 200 page_a_absent_name "u" "g" = .error .missingName :=
  (C7_absent_name_rejected page_a_absent_name "u" "g").1
    (.elem "h3" [("id", "h3CompanyName")]
      (forestOf [.text "x", .elem "br" [] .nil]))
    [] rfl rfl rfl

/-! Claim C10: listing extraction stops at a link-less listing. -/

/-- C10: when the listing divs are `pre ++ bad :: post` with every div
in `pre` carrying a `/kontakt` link and `bad` carrying none,
`get_company_urls_on_page` returns exactly what it would return for
`pre` alone: every listing from `bad` onwards is silently dropped, and
no error is raised (the function returns a plain list). -/
theorem C10_missing_link_truncates (pre : List Node) (bad : Node)
    (post : List Node) (exclude : List String)
    (hpre : ∀ d ∈ pre, (find_forest is_kontakt_anchor (childrenOf d)).isSome)
    (hbad : find_forest is_kontakt_anchor (childrenOf bad) = none) :
    get_company_urls_on_page (pre ++ bad :: post) exclude =
      get_company_urls_on_page pre exclude := by
  induction pre with
  | nil =>
    simp [get_company_urls_on_page, hbad]
  | cons d pre ih =>
    have hd := hpre d (List.mem_cons_self d pre)
    cases ha : find_forest is_kontakt_anchor (childrenOf d) with
    | none => rw [ha] at hd; simp at hd
    | some a =>
      have ih' := ih (fun d' hd' => hpre d' (List.mem_cons_of_mem d hd'))
      simp [get_company_urls_on_page, ha, ih']

/-- A listing div with a `/kontakt` contact link. -/
def div_with_link : Node :=
  .elem "div" [("itemtype", "https://schema.org/Organization")]
    (forestOf [.elem "a" [("href", "x/kontakt")] .nil])

/-- A listing div with no contact link. -/
def div_without_link : Node :=
  .elem "div" [("itemtype", "https://schema.org/Organization")] .nil

/-- Concrete instance of C10: the link-less second div makes the third
div's URL disappear from the result. -/
theorem C10_missing_link_witness :
    get_company_urls_on_page [div_with_link, div_without_link, div_with_link]
        [] =
      get_company_urls_on_page [div_with_link] [] :=
  C10_missing_link_truncates [div_with_link] div_without_link [div_with_link]
    []
    (by
      intro d hd
      rw [List.mem_singleton] at hd
      subst hd
      rfl)
    rfl

end Edb
